import Mathlib

/-!
Verification of the finsor-backend rate limiter and request validators.

The definitions below are a shallow embedding of the middleware module:
the `RateLimiter` class (its `middleware` handler and `cleanup` sweep) and
the `validateFinancialQuery` / `validateSymbol` guard functions.

Modelling choices:
- timestamps (`Date.now()` values) are naturals;
- the rate-limit store (a plain JS object keyed by client strings) is a
  total function `String → Option ThrottleEntry`;
- the Express request surface is reduced to the data each function reads:
  `req.ip` becomes `Option String` (absent or a string), the `question`
  body field becomes a `JSValue` (to reflect JS truthiness and `typeof`
  checks), the `symbol` path parameter becomes `Option String`;
- sending a 429/400 response versus calling `next()` is abstracted into
  the result values `CheckResult` and `ValidationResult`, carrying the
  status code and error string the middleware would emit.
-/

namespace Finsor

/-- One stored bucket: `{ count, resetTime }` of the `RateLimitStore`. -/
structure ThrottleEntry where
  count : Nat
  resetTime : Nat
  deriving DecidableEq, Repr

/-- The outcome of a pass through the rate-limiting middleware:
`allowed` models calling `next()`, `denied` models the 429 response. -/
inductive CheckResult where
  | allowed
  | denied
  deriving DecidableEq, Repr

/-- The `RateLimiter` object: its store plus configuration. -/
structure RateLimiter where
  store : String → Option ThrottleEntry
  maxRequests : Nat
  windowMs : Nat

/-- Point update of the store, modelling `this.store[key] = entry`. -/
def setEntry (s : String → Option ThrottleEntry) (key : String)
    (e : ThrottleEntry) : String → Option ThrottleEntry :=
  fun q => if q = key then some e else s q

/-- The store of a freshly constructed limiter (`private store = {}`). -/
def emptyStore : String → Option ThrottleEntry := fun _ => none

/-- The body of `RateLimiter.middleware` after the key is computed:
if the key is absent or `now > resetTime`, re-arm with `count = 1`,
`resetTime = now + windowMs` and allow; else if `count >= maxRequests`,
deny without mutating; else increment `count` and allow. -/
def check (rl : RateLimiter) (key : String) (now : Nat) :
    CheckResult × RateLimiter :=
  match rl.store key with
  | none =>
      (CheckResult.allowed,
        { rl with store := setEntry rl.store key ⟨1, now + rl.windowMs⟩ })
  | some entry =>
      if now > entry.resetTime then
        (CheckResult.allowed,
          { rl with store := setEntry rl.store key ⟨1, now + rl.windowMs⟩ })
      else if entry.count ≥ rl.maxRequests then
        (CheckResult.denied, rl)
      else
        (CheckResult.allowed,
          { rl with store :=
              setEntry rl.store key ⟨entry.count + 1, entry.resetTime⟩ })

/-- `const key = req.ip || 'unknown'`: an absent or empty `req.ip`
falls back to the literal key `"unknown"`. -/
def clientKey (ip : Option String) : String :=
  match ip with
  | none => "unknown"
  | some s => if s = "" then "unknown" else s

/-- The full `RateLimiter.middleware`: derive the client key from
`req.ip`, then run the check against the store. -/
def middleware (rl : RateLimiter) (ip : Option String) (now : Nat) :
    CheckResult × RateLimiter :=
  check rl (clientKey ip) now

/-- `RateLimiter.cleanup`: delete every entry with `now > resetTime`. -/
def cleanup (rl : RateLimiter) (now : Nat) : RateLimiter :=
  { rl with store := fun q =>
      match rl.store q with
      | none => none
      | some entry =>
          if now > entry.resetTime then none else some entry }

/-- Iterate `check` for one key at the given sequence of clock values,
collecting the results in order together with the final limiter state. -/
def runChecks (rl : RateLimiter) (key : String) :
    List Nat → List CheckResult × RateLimiter
  | [] => ([], rl)
  | t :: ts =>
      let step := check rl key t
      let rest := runChecks step.2 key ts
      (step.1 :: rest.1, rest.2)

/-- One operation against the limiter: a middleware check for some key
at some clock value, or a cleanup sweep at some clock value. -/
inductive Op where
  | check (key : String) (now : Nat)
  | sweep (now : Nat)

/-- Run a sequence of operations against the limiter. -/
def runOps (rl : RateLimiter) : List Op → RateLimiter
  | [] => rl
  | Op.check key now :: ops => runOps (check rl key now).2 ops
  | Op.sweep now :: ops => runOps (cleanup rl now) ops

/-- A limiter as built by `new RateLimiter(maxRequests, windowMs)`. -/
def initLimiter (maxRequests windowMs : Nat) : RateLimiter :=
  { store := emptyStore, maxRequests := maxRequests, windowMs := windowMs }

/-- A JavaScript value as far as the validators inspect one: the
`question` body field may be absent, `null`, a boolean, a number,
a string, or some other object. Numbers are modelled as integers. -/
inductive JSValue where
  | undefined
  | null
  | boolean (b : Bool)
  | number (n : Int)
  | str (s : String)
  | object
  deriving DecidableEq, Repr

/-- JS truthiness as tested by `!question`: `undefined`, `null`,
`false`, `0` and the empty string are falsy. -/
def falsy : JSValue → Bool
  | JSValue.undefined => true
  | JSValue.null => true
  | JSValue.boolean b => !b
  | JSValue.number n => n == 0
  | JSValue.str s => s == ""
  | JSValue.object => false

/-- The outcome of a validator: `pass` models calling `next()`,
`reject` carries the HTTP status code and the error string sent. -/
inductive ValidationResult where
  | pass
  | reject (code : Nat) (error : String)
  deriving DecidableEq, Repr

/-- JS `String.prototype.trim`, as the character list of the result:
drop leading and trailing whitespace. -/
def trimChars (s : String) : List Char :=
  ((s.data.dropWhile Char.isWhitespace).reverse.dropWhile
    Char.isWhitespace).reverse

/-- `validateFinancialQuery`, applied to the value of `req.body.question`:
reject falsy values as required-missing, non-strings as wrong type,
whitespace-only strings as empty, strings over 1000 characters as too
long; otherwise pass. -/
def validateFinancialQuery (question : JSValue) : ValidationResult :=
  if falsy question then
    ValidationResult.reject 400 "Question is required"
  else
    match question with
    | JSValue.str s =>
        if (trimChars s).length = 0 then
          ValidationResult.reject 400 "Question cannot be empty"
        else if s.length > 1000 then
          ValidationResult.reject 400 "Question is too long (max 1000 characters)"
        else
          ValidationResult.pass
    | _ => ValidationResult.reject 400 "Question must be a string"

/-- Membership of one character in the regex class `[A-Za-z0-9-]`. -/
def symbolChar (c : Char) : Bool :=
  ('A' ≤ c && c ≤ 'Z') || ('a' ≤ c && c ≤ 'z') ||
    ('0' ≤ c && c ≤ '9') || c == '-'

/-- The test `/^[A-Za-z0-9-]+$/.test(s)`: `s` is nonempty and every
character belongs to the class. -/
def symbolFormat (s : String) : Bool :=
  decide (s.length > 0) && s.toList.all symbolChar

/-- `validateSymbol`, applied to the value of `req.params.symbol`:
reject an absent or empty symbol as required-missing, a symbol failing
the regex as invalid format; otherwise pass. -/
def validateSymbol (symbol : Option String) : ValidationResult :=
  match symbol with
  | none => ValidationResult.reject 400 "Symbol is required"
  | some s =>
      if s = "" then
        ValidationResult.reject 400 "Symbol is required"
      else if !(symbolFormat s) then
        ValidationResult.reject 400 "Invalid symbol format"
      else
        ValidationResult.pass

/-! ### Helper lemmas on `check` -/

/-- With no entry for the key, `check` re-arms the bucket and allows. -/
theorem check_of_none (rl : RateLimiter) (key : String) (now : Nat)
    (h : rl.store key = none) :
    check rl key now =
      (CheckResult.allowed,
        { rl with store := setEntry rl.store key ⟨1, now + rl.windowMs⟩ }) := by
  unfold check
  rw [h]

/-- With an expired entry for the key, `check` re-arms the bucket. -/
theorem check_of_expired (rl : RateLimiter) (key : String) (now : Nat)
    (e : ThrottleEntry) (h : rl.store key = some e) (hexp : now > e.resetTime) :
    check rl key now =
      (CheckResult.allowed,
        { rl with store := setEntry rl.store key ⟨1, now + rl.windowMs⟩ }) := by
  unfold check
  rw [h]
  simp [hexp]

/-- Within the window and below the maximum, `check` increments. -/
theorem check_of_below (rl : RateLimiter) (key : String) (now : Nat)
    (e : ThrottleEntry) (h : rl.store key = some e) (hin : now ≤ e.resetTime)
    (hlt : e.count < rl.maxRequests) :
    check rl key now =
      (CheckResult.allowed,
        { rl with store := setEntry rl.store key ⟨e.count + 1, e.resetTime⟩ }) := by
  unfold check
  rw [h]
  simp [Nat.not_lt.mpr hin, Nat.not_le.mpr hlt]

/-- Within the window at the maximum, `check` denies without mutating. -/
theorem check_of_full (rl : RateLimiter) (key : String) (now : Nat)
    (e : ThrottleEntry) (h : rl.store key = some e) (hin : now ≤ e.resetTime)
    (hge : e.count ≥ rl.maxRequests) :
    check rl key now = (CheckResult.denied, rl) := by
  unfold check
  rw [h]
  simp [Nat.not_lt.mpr hin, hge]

/-- `check` never touches the configuration fields. -/
theorem check_config (rl : RateLimiter) (key : String) (now : Nat) :
    (check rl key now).2.maxRequests = rl.maxRequests ∧
      (check rl key now).2.windowMs = rl.windowMs := by
  unfold check
  cases h : rl.store key with
  | none => exact ⟨rfl, rfl⟩
  | some e =>
      by_cases hexp : now > e.resetTime
      · simp [hexp]
      · by_cases hge : e.count ≥ rl.maxRequests
        · simp [hexp, hge]
        · simp [hexp, hge]

/-- `setEntry` leaves every other key unchanged. -/
theorem setEntry_ne (s : String → Option ThrottleEntry) (key q : String)
    (e : ThrottleEntry) (h : q ≠ key) : setEntry s key e q = s q := by
  unfold setEntry
  simp [h]

/-- `check` for one key leaves the entry of every other key unchanged. -/
theorem check_frame (rl : RateLimiter) (key : String) (now : Nat)
    (q : String) (h : q ≠ key) :
    (check rl key now).2.store q = rl.store q := by
  unfold check
  cases hs : rl.store key with
  | none => simpa using setEntry_ne rl.store key q _ h
  | some e =>
      by_cases hexp : now > e.resetTime
      · simpa [hexp] using setEntry_ne rl.store key q _ h
      · by_cases hge : e.count ≥ rl.maxRequests
        · simp [hexp, hge]
        · simpa [hexp, hge] using setEntry_ne rl.store key q _ h

/-- The result of `check` depends only on the checked key's entry and
on `maxRequests`. -/
theorem check_result_congr (rl₁ rl₂ : RateLimiter) (key : String) (now : Nat)
    (hs : rl₁.store key = rl₂.store key)
    (hm : rl₁.maxRequests = rl₂.maxRequests) :
    (check rl₁ key now).1 = (check rl₂ key now).1 := by
  unfold check
  rw [hs, hm]
  cases rl₂.store key with
  | none => rfl
  | some e =>
      by_cases hexp : now > e.resetTime
      · simp [hexp]
      · by_cases hge : e.count ≥ rl₂.maxRequests
        · simp [hexp, hge]
        · simp [hexp, hge]

/-! ### Claim theorems -/

/-- C2: if the middleware check denies a request, the limiter — its
whole store included — is left exactly as it was: no entry is created,
removed, or changed. -/
theorem denied_leaves_state_unchanged (rl : RateLimiter) (key : String)
    (now : Nat) (h : (check rl key now).1 = CheckResult.denied) :
    (check rl key now).2 = rl := by
  cases hs : rl.store key with
  | none =>
      rw [check_of_none rl key now hs] at h
      exact absurd h (by simp)
  | some e =>
      by_cases hexp : now > e.resetTime
      · rw [check_of_expired rl key now e hs hexp] at h
        exact absurd h (by simp)
      · by_cases hge : e.count ≥ rl.maxRequests
        · rw [check_of_full rl key now e hs (Nat.not_lt.mp hexp) hge]
        · rw [check_of_below rl key now e hs (Nat.not_lt.mp hexp)
            (Nat.not_le.mp hge)] at h
          exact absurd h (by simp)

/-- A saturated limiter used to instantiate theorems with hypotheses. -/
def rlSat : RateLimiter :=
  { store := setEntry emptyStore "a" ⟨5, 100⟩, maxRequests := 5,
    windowMs := 900000 }

/-- C2 witness: a saturated key at clock 50 is denied and the limiter
is returned unchanged. -/
theorem denied_leaves_state_unchanged_witness :
    (check rlSat "a" 50).2 = rlSat :=
  denied_leaves_state_unchanged rlSat "a" 50 (by decide)

/-- C3: with no entry for the key, or an entry whose `resetTime` is in
the past, `check` allows the request, stores `count = 1` with
`resetTime = now + windowMs` for the key, and changes no other key. -/
theorem fresh_or_expired_resets_and_allows (rl : RateLimiter) (key : String)
    (now : Nat)
    (h : rl.store key = none ∨
      ∃ e, rl.store key = some e ∧ now > e.resetTime) :
    (check rl key now).1 = CheckResult.allowed ∧
      (check rl key now).2.store key = some ⟨1, now + rl.windowMs⟩ ∧
      ∀ q, q ≠ key → (check rl key now).2.store q = rl.store q := by
  have hset : setEntry rl.store key ⟨1, now + rl.windowMs⟩ key =
      some ⟨1, now + rl.windowMs⟩ := by
    unfold setEntry; simp
  rcases h with hnone | ⟨e, hsome, hexp⟩
  · rw [check_of_none rl key now hnone]
    exact ⟨rfl, hset, fun q hq => setEntry_ne rl.store key q _ hq⟩
  · rw [check_of_expired rl key now e hsome hexp]
    exact ⟨rfl, hset, fun q hq => setEntry_ne rl.store key q _ hq⟩

/-- C3 witness: a fresh key at clock 0 on an empty store is allowed
and gets the entry `⟨1, windowMs⟩`. -/
theorem fresh_or_expired_resets_and_allows_witness :
    (check (initLimiter 5 1000) "a" 0).1 = CheckResult.allowed ∧
      (check (initLimiter 5 1000) "a" 0).2.store "a" = some ⟨1, 0 + 1000⟩ ∧
      ∀ q, q ≠ "a" →
        (check (initLimiter 5 1000) "a" 0).2.store q =
          (initLimiter 5 1000).store q :=
  fresh_or_expired_resets_and_allows (initLimiter 5 1000) "a" 0
    (Or.inl rfl)

/-- C5: a request arriving exactly at `resetTime` is a normal increment
attempt (allowed with the count bumped when below the maximum, denied
without mutation otherwise), and for any clock not past `resetTime` the
entry keeps its `resetTime` — a reset happens only when `now > resetTime`. -/
theorem expiry_boundary_is_strict (rl : RateLimiter) (key : String)
    (e : ThrottleEntry) (h : rl.store key = some e) :
    (e.count < rl.maxRequests →
      check rl key e.resetTime =
        (CheckResult.allowed,
          { rl with store :=
              setEntry rl.store key ⟨e.count + 1, e.resetTime⟩ })) ∧
    (rl.maxRequests ≤ e.count →
      check rl key e.resetTime = (CheckResult.denied, rl)) ∧
    (∀ now, now ≤ e.resetTime →
      ∃ c, (check rl key now).2.store key = some ⟨c, e.resetTime⟩) := by
  refine ⟨fun hlt => ?_, fun hge => ?_, fun now hin => ?_⟩
  · exact check_of_below rl key e.resetTime e h le_rfl hlt
  · exact check_of_full rl key e.resetTime e h le_rfl hge
  · by_cases hlt : e.count < rl.maxRequests
    · refine ⟨e.count + 1, ?_⟩
      rw [check_of_below rl key now e h hin hlt]
      unfold setEntry; simp
    · refine ⟨e.count, ?_⟩
      rw [check_of_full rl key now e h hin (Nat.not_lt.mp hlt)]
      exact h

/-- C5 witness: on the saturated limiter, at exactly `resetTime = 100`
the request is denied with no mutation, and the entry keeps its
`resetTime`. -/
theorem expiry_boundary_is_strict_witness :
    check rlSat "a" 100 = (CheckResult.denied, rlSat) ∧
      ∃ c, (check rlSat "a" 100).2.store "a" = some ⟨c, 100⟩ :=
  ⟨(expiry_boundary_is_strict rlSat "a" ⟨5, 100⟩ (by decide)).2.1
      (by decide),
    (expiry_boundary_is_strict rlSat "a" ⟨5, 100⟩ (by decide)).2.2 100
      (by decide)⟩

/-- C10: when `req.ip` is absent or empty, the middleware throttles the
request under the literal key `"unknown"`, so all such requests share
that single bucket. -/
theorem unknown_shared_bucket (ip : Option String)
    (h : ip = none ∨ ip = some "") (rl : RateLimiter) (now : Nat) :
    middleware rl ip now = check rl "unknown" now := by
  rcases h with h | h <;> subst h <;> rfl

/-- C10 witness: an absent `req.ip` on an empty limiter is bucketed
under `"unknown"`. -/
theorem unknown_shared_bucket_witness :
    middleware (initLimiter 5 1000) none 0 =
      check (initLimiter 5 1000) "unknown" 0 :=
  unknown_shared_bucket none (Or.inl rfl) (initLimiter 5 1000) 0

/-- C6: at any key, `cleanup` removes the entry exactly when its
`resetTime` is in the past; every other entry survives with its `count`
and `resetTime` unchanged, and no entry appears at a previously empty
key. -/
theorem cleanup_removes_exactly_expired (rl : RateLimiter) (now : Nat)
    (k : String) :
    (∀ e, rl.store k = some e → now > e.resetTime →
      (cleanup rl now).store k = none) ∧
    (∀ e, rl.store k = some e → now ≤ e.resetTime →
      (cleanup rl now).store k = some e) ∧
    (rl.store k = none → (cleanup rl now).store k = none) := by
  refine ⟨fun e he hexp => ?_, fun e he hin => ?_, fun he => ?_⟩
  · unfold cleanup
    simp [he, hexp]
  · unfold cleanup
    simp [he, Nat.not_lt.mpr hin]
  · unfold cleanup
    simp [he]

/-- A limiter holding one expired and one live entry at clock 150. -/
def rlMixed : RateLimiter :=
  { store := setEntry (setEntry emptyStore "old" ⟨3, 100⟩) "live" ⟨2, 200⟩,
    maxRequests := 5, windowMs := 900000 }

/-- C6 witness: at clock 150 the sweep removes the entry that expired
at 100 and keeps the one expiring at 200 unchanged. -/
theorem cleanup_removes_exactly_expired_witness :
    (cleanup rlMixed 150).store "old" = none ∧
      (cleanup rlMixed 150).store "live" = some ⟨2, 200⟩ ∧
      (cleanup rlMixed 150).store "other" = none :=
  ⟨(cleanup_removes_exactly_expired rlMixed 150 "old").1 ⟨3, 100⟩
      (by decide) (by decide),
    (cleanup_removes_exactly_expired rlMixed 150 "live").2.1 ⟨2, 200⟩
      (by decide) (by decide),
    (cleanup_removes_exactly_expired rlMixed 150 "other").2.2 (by decide)⟩

/-- C8: `validateSymbol` rejects 400 `Symbol is required` when the path
parameter is absent or empty, rejects 400 `Invalid symbol format` when
some character falls outside `[A-Za-z0-9-]`, and otherwise passes; the
validator computes only a pass/reject signal and never rewrites the
symbol, so its case is preserved. -/
theorem validateSymbol_contract (symbol : Option String) :
    ((symbol = none ∨ symbol = some "") →
      validateSymbol symbol =
        ValidationResult.reject 400 "Symbol is required") ∧
    (∀ s, symbol = some s → s ≠ "" →
      (∃ c ∈ s.toList, symbolChar c = false) →
      validateSymbol symbol =
        ValidationResult.reject 400 "Invalid symbol format") ∧
    (∀ s, symbol = some s → s ≠ "" →
      (∀ c ∈ s.toList, symbolChar c = true) →
      validateSymbol symbol = ValidationResult.pass) := by
  refine ⟨fun h => ?_, fun s hs hne ⟨c, hc, hbad⟩ => ?_,
    fun s hs hne hall => ?_⟩
  · rcases h with h | h <;> subst h <;> rfl
  · subst hs
    unfold validateSymbol
    have hall : s.toList.all symbolChar = false := by
      rw [List.all_eq_false]
      exact ⟨c, hc, by simp [hbad]⟩
    have hfmt : symbolFormat s = false := by
      unfold symbolFormat
      rw [hall, Bool.and_false]
    simp [hne, hfmt]
  · subst hs
    unfold validateSymbol
    have hpos : 0 < s.length := by
      rcases Nat.eq_zero_or_pos s.length with hl | hl
      · obtain ⟨data⟩ := s
        have : data = [] := List.length_eq_zero.mp hl
        subst this
        exact absurd rfl hne
      · exact hl
    have hfmt : symbolFormat s = true := by
      unfold symbolFormat
      rw [List.all_eq_true.mpr (fun c hc => hall c hc)]
      simp [hpos]
    simp [hne, hfmt]

/-- C8 witness: `"BTC-usd9"` is nonempty and every character is in the
class, so the validator passes (mixed case intact). -/
theorem validateSymbol_contract_witness :
    validateSymbol (some "BTC-usd9") = ValidationResult.pass :=
  (validateSymbol_contract (some "BTC-usd9")).2.2 "BTC-usd9" rfl
    (by decide) (by decide)

/-- C4 counterexample: the empty string is a present, textual `question`
whose trimmed length is zero, so the claim reports reason `empty`
(error `Question cannot be empty`); the code instead takes the
falsy-check branch and reports `Question is required` (the `missing`
reason). -/
theorem validateQuestion_empty_string_is_missing :
    validateFinancialQuery (JSValue.str "") =
        ValidationResult.reject 400 "Question is required" ∧
      validateFinancialQuery (JSValue.str "") ≠
        ValidationResult.reject 400 "Question cannot be empty" := by
  exact ⟨rfl, by decide⟩

/-- C4 amended: `validateFinancialQuery` rejects 400
`Question is required` whenever the `question` value is falsy (absent,
`null`, `false`, `0`, or the empty string); rejects 400
`Question must be a string` when the value is truthy but not a string;
rejects 400 `Question cannot be empty` when it is a nonempty string
whose trimmed length is zero; rejects 400 `Question is too long (max
1000 characters)` when it is a string of nonzero trimmed length and
untrimmed length over 1000; and otherwise passes — first match wins in
that order. -/
theorem validateQuestion_classification (q : JSValue) :
    (falsy q = true →
      validateFinancialQuery q =
        ValidationResult.reject 400 "Question is required") ∧
    (falsy q = false → (∀ s, q ≠ JSValue.str s) →
      validateFinancialQuery q =
        ValidationResult.reject 400 "Question must be a string") ∧
    (∀ s, q = JSValue.str s → s ≠ "" → (trimChars s).length = 0 →
      validateFinancialQuery q =
        ValidationResult.reject 400 "Question cannot be empty") ∧
    (∀ s, q = JSValue.str s → (trimChars s).length ≠ 0 → s.length > 1000 →
      validateFinancialQuery q =
        ValidationResult.reject 400
          "Question is too long (max 1000 characters)") ∧
    (∀ s, q = JSValue.str s → (trimChars s).length ≠ 0 → s.length ≤ 1000 →
      validateFinancialQuery q = ValidationResult.pass) := by
  refine ⟨fun hf => ?_, fun hf hns => ?_, fun s hq hne htr => ?_,
    fun s hq htr hlong => ?_, fun s hq htr hshort => ?_⟩
  · unfold validateFinancialQuery
    simp [hf]
  · unfold validateFinancialQuery
    rw [hf]
    cases q with
    | str s => exact absurd rfl (hns s)
    | undefined => rfl
    | null => rfl
    | boolean b => rfl
    | number n => rfl
    | object => rfl
  · subst hq
    unfold validateFinancialQuery
    have hf : falsy (JSValue.str s) = false := by
      unfold falsy
      simp [hne]
    simp [hf, htr]
  · subst hq
    have hne : s ≠ "" := by
      intro h
      subst h
      exact htr rfl
    unfold validateFinancialQuery
    have hf : falsy (JSValue.str s) = false := by
      unfold falsy
      simp [hne]
    simp [hf, htr, hlong]
  · subst hq
    have hne : s ≠ "" := by
      intro h
      subst h
      exact htr rfl
    unfold validateFinancialQuery
    have hf : falsy (JSValue.str s) = false := by
      unfold falsy
      simp [hne]
    simp [hf, htr, Nat.not_lt.mpr hshort]

/-- C4 amended witness: a whitespace-only string is truthy, textual,
and trims to length zero, so the amended classification reports the
`empty` rejection there. -/
theorem validateQuestion_classification_witness :
    validateFinancialQuery (JSValue.str "   ") =
      ValidationResult.reject 400 "Question cannot be empty" :=
  (validateQuestion_classification (JSValue.str "   ")).2.2.1 "   " rfl
    (by decide) (by decide)

/-! ### Iterated checks -/

/-- A run of checks for one key leaves every other key's entry alone. -/
theorem runChecks_frame (key q : String) (h : q ≠ key) (ts : List Nat) :
    ∀ rl : RateLimiter, (runChecks rl key ts).2.store q = rl.store q := by
  induction ts with
  | nil => intro rl; rfl
  | cons t ts ih =>
      intro rl
      show (runChecks (check rl key t).2 key ts).2.store q = rl.store q
      rw [ih (check rl key t).2, check_frame rl key t q h]

/-- A run of checks never touches the configuration fields. -/
theorem runChecks_config (key : String) (ts : List Nat) :
    ∀ rl : RateLimiter,
      (runChecks rl key ts).2.maxRequests = rl.maxRequests := by
  induction ts with
  | nil => intro rl; rfl
  | cons t ts ih =>
      intro rl
      show (runChecks (check rl key t).2 key ts).2.maxRequests =
        rl.maxRequests
      rw [ih (check rl key t).2, (check_config rl key t).1]

/-- Saturation run: starting from an in-window entry `⟨c, R⟩`, a run of
checks at clock values not past `R`, long enough to overshoot the
maximum by exactly one, yields all-allowed followed by one denial. -/
theorem runChecks_saturate (key : String) (R : Nat) (ts : List Nat) :
    ∀ (rl : RateLimiter) (c : Nat),
      rl.store key = some ⟨c, R⟩ →
      (∀ t ∈ ts, t ≤ R) →
      c ≤ rl.maxRequests →
      c + ts.length = rl.maxRequests + 1 →
      (runChecks rl key ts).1 =
        List.replicate (rl.maxRequests - c) CheckResult.allowed ++
          [CheckResult.denied] := by
  induction ts with
  | nil =>
      intro rl c hstore hts hle hlen
      simp at hlen
      omega
  | cons t ts ih =>
      intro rl c hstore hts hle hlen
      have ht : t ≤ R := hts t (List.mem_cons_self t ts)
      have hcons : (runChecks rl key (t :: ts)).1 =
          (check rl key t).1 :: (runChecks (check rl key t).2 key ts).1 :=
        rfl
      rcases Nat.lt_or_ge c rl.maxRequests with hlt | hge
      · have hstep := check_of_below rl key t ⟨c, R⟩ hstore ht hlt
        rw [hcons, hstep]
        have hstore2 :
            (setEntry rl.store key ⟨c + 1, R⟩) key = some ⟨c + 1, R⟩ := by
          unfold setEntry
          simp
        have htail := ih
          { rl with store := setEntry rl.store key ⟨c + 1, R⟩ } (c + 1)
          hstore2 (fun u hu => hts u (List.mem_cons_of_mem t hu)) hlt
          (by simp at hlen ⊢; omega)
        simp only at htail
        rw [htail]
        have hsub : rl.maxRequests - c = (rl.maxRequests - (c + 1)) + 1 := by
          omega
        rw [hsub, List.replicate_succ]
        rfl
      · have hc : c = rl.maxRequests := Nat.le_antisymm hle hge
        have hts0 : ts.length = 0 := by
          simp at hlen
          omega
        have hnil : ts = [] := List.length_eq_zero.mp hts0
        subst hnil
        have hstep := check_of_full rl key t ⟨c, R⟩ hstore ht hge
        rw [hcons, hstep]
        rw [hc, Nat.sub_self]
        rfl

/-! ### Invariant machinery -/

/-- Every stored bucket has `1 ≤ count ≤ maxRequests`. -/
def StoreBounded (rl : RateLimiter) : Prop :=
  ∀ k e, rl.store k = some e → 1 ≤ e.count ∧ e.count ≤ rl.maxRequests

/-- `check` preserves the count bounds whenever the maximum is positive. -/
theorem check_preserves_bounded (rl : RateLimiter) (key : String)
    (now : Nat) (hM : 0 < rl.maxRequests) (hb : StoreBounded rl) :
    StoreBounded (check rl key now).2 := by
  intro k e hk
  rw [(check_config rl key now).1]
  by_cases hkey : k = key
  · subst hkey
    cases hs : rl.store k with
    | none =>
        rw [check_of_none rl k now hs] at hk
        unfold setEntry at hk
        simp at hk
        subst hk
        exact ⟨le_rfl, hM⟩
    | some e0 =>
        by_cases hexp : now > e0.resetTime
        · rw [check_of_expired rl k now e0 hs hexp] at hk
          unfold setEntry at hk
          simp at hk
          subst hk
          exact ⟨le_rfl, hM⟩
        · by_cases hge : e0.count ≥ rl.maxRequests
          · rw [check_of_full rl k now e0 hs (Nat.not_lt.mp hexp) hge] at hk
            exact hb k e hk
          · rw [check_of_below rl k now e0 hs (Nat.not_lt.mp hexp)
              (Nat.not_le.mp hge)] at hk
            unfold setEntry at hk
            simp at hk
            subst hk
            exact ⟨Nat.le_add_left 1 e0.count,
              Nat.succ_le_of_lt (Nat.not_le.mp hge)⟩
  · rw [check_frame rl key now k hkey] at hk
    exact hb k e hk

/-- Every entry surviving a `cleanup` was already stored unchanged. -/
theorem cleanup_store_subset (rl : RateLimiter) (now : Nat) (k : String)
    (e : ThrottleEntry) (h : (cleanup rl now).store k = some e) :
    rl.store k = some e := by
  unfold cleanup at h
  simp only at h
  cases hs : rl.store k with
  | none =>
      rw [hs] at h
      exact absurd h (by simp)
  | some e0 =>
      rw [hs] at h
      by_cases hexp : now > e0.resetTime
      · simp [hexp] at h
      · simp [hexp] at h
        rw [h]

/-- `cleanup` preserves the count bounds. -/
theorem cleanup_preserves_bounded (rl : RateLimiter) (now : Nat)
    (hb : StoreBounded rl) : StoreBounded (cleanup rl now) := by
  intro k e hk
  exact hb k e (cleanup_store_subset rl now k e hk)

/-- Any sequence of middleware checks and sweeps preserves the bounds. -/
theorem runOps_bounded (ops : List Op) :
    ∀ rl : RateLimiter, 0 < rl.maxRequests → StoreBounded rl →
      StoreBounded (runOps rl ops) := by
  induction ops with
  | nil => intro rl _ hb; exact hb
  | cons op ops ih =>
      intro rl hM hb
      cases op with
      | check key now =>
          show StoreBounded (runOps (check rl key now).2 ops)
          refine ih (check rl key now).2 ?_
            (check_preserves_bounded rl key now hM hb)
          rw [(check_config rl key now).1]
          exact hM
      | sweep now =>
          show StoreBounded (runOps (cleanup rl now) ops)
          exact ih (cleanup rl now) hM (cleanup_preserves_bounded rl now hb)

/-- Operations never change `maxRequests`. -/
theorem runOps_maxRequests (ops : List Op) :
    ∀ rl : RateLimiter, (runOps rl ops).maxRequests = rl.maxRequests := by
  induction ops with
  | nil => intro rl; rfl
  | cons op ops ih =>
      intro rl
      cases op with
      | check key now =>
          show (runOps (check rl key now).2 ops).maxRequests =
            rl.maxRequests
          rw [ih (check rl key now).2, (check_config rl key now).1]
      | sweep now =>
          show (runOps (cleanup rl now) ops).maxRequests = rl.maxRequests
          exact ih (cleanup rl now)

/-! ### Remaining claim theorems -/

/-- C1: for a key with no prior entry and `maxRequests = N > 0`, a run
of `N + 1` checks whose clock values stay within the window opened by
the first call returns `N` alloweds followed by one denial. -/
theorem window_saturation (rl : RateLimiter) (key : String) (t0 : Nat)
    (rest : List Nat)
    (hfresh : rl.store key = none)
    (hM : 0 < rl.maxRequests)
    (hlen : rest.length = rl.maxRequests)
    (hwin : ∀ t ∈ rest, t ≤ t0 + rl.windowMs) :
    (runChecks rl key (t0 :: rest)).1 =
      List.replicate rl.maxRequests CheckResult.allowed ++
        [CheckResult.denied] := by
  have hcons : (runChecks rl key (t0 :: rest)).1 =
      (check rl key t0).1 :: (runChecks (check rl key t0).2 key rest).1 :=
    rfl
  rw [hcons, check_of_none rl key t0 hfresh]
  have hstore1 :
      (setEntry rl.store key ⟨1, t0 + rl.windowMs⟩) key =
        some ⟨1, t0 + rl.windowMs⟩ := by
    unfold setEntry
    simp
  have htail := runChecks_saturate key (t0 + rl.windowMs) rest
    { rl with store := setEntry rl.store key ⟨1, t0 + rl.windowMs⟩ } 1
    hstore1 hwin hM (by simp only; omega)
  simp only at htail
  rw [htail]
  have hrep : rl.maxRequests = (rl.maxRequests - 1) + 1 := by omega
  rw [hrep, List.replicate_succ]
  simp

/-- C1 witness: with `maxRequests = 2`, three calls for a fresh key at
clocks 0, 3, 5 (window 10) yield allowed, allowed, denied. -/
theorem window_saturation_witness :
    (runChecks (initLimiter 2 10) "a" [0, 3, 5]).1 =
      List.replicate 2 CheckResult.allowed ++ [CheckResult.denied] :=
  window_saturation (initLimiter 2 10) "a" 0 [3, 5] rfl (by decide) rfl
    (by decide)

/-- C7: starting from the empty store with positive `maxRequests = M`,
after any sequence of middleware checks and cleanup sweeps every stored
entry satisfies `1 ≤ count ≤ M`. -/
theorem store_count_invariant (M W : Nat) (hM : 0 < M) (ops : List Op)
    (k : String) (e : ThrottleEntry)
    (h : (runOps (initLimiter M W) ops).store k = some e) :
    1 ≤ e.count ∧ e.count ≤ M := by
  have hb : StoreBounded (initLimiter M W) := by
    intro q e0 hq
    exact absurd hq (by simp [initLimiter, emptyStore])
  have hres := runOps_bounded ops (initLimiter M W) hM hb k e h
  rwa [runOps_maxRequests ops (initLimiter M W)] at hres

/-- C7 witness: with `M = 1`, after one check the stored entry for the
key has `count = 1`, within bounds. -/
theorem store_count_invariant_witness :
    1 ≤ (1 : Nat) ∧ (1 : Nat) ≤ 1 :=
  store_count_invariant 1 5 (by decide) [Op.check "a" 0] "a" ⟨1, 5⟩ rfl

/-- C9: a run of checks for key `A` leaves the entry of a distinct key
`B` untouched, and a subsequent check for `B` returns exactly the
result it would have returned before the run — saturating `A` never
affects `B`. -/
theorem independence_across_keys (rl : RateLimiter) (A B : String)
    (hAB : A ≠ B) (ts : List Nat) (t : Nat) :
    (runChecks rl A ts).2.store B = rl.store B ∧
      (check (runChecks rl A ts).2 B t).1 = (check rl B t).1 := by
  have hframe := runChecks_frame A B (Ne.symm hAB) ts rl
  exact ⟨hframe,
    check_result_congr (runChecks rl A ts).2 rl B t hframe
      (runChecks_config A ts rl)⟩

/-- C9 witness: saturating key `a` (two calls under `maxRequests = 1`)
leaves key `b` absent and its next check result unchanged. -/
theorem independence_across_keys_witness :
    (runChecks (initLimiter 1 10) "a" [0, 1]).2.store "b" =
        (initLimiter 1 10).store "b" ∧
      (check (runChecks (initLimiter 1 10) "a" [0, 1]).2 "b" 2).1 =
        (check (initLimiter 1 10) "b" 2).1 :=
  independence_across_keys (initLimiter 1 10) "a" "b" (by decide) [0, 1] 2

end Finsor
